import Mathlib

/-!
Shallow embedding of the Chrono multicore collision system
(`ChCollisionSystemChrono`, declared in
`src/chrono/collision/ChCollisionSystemChrono.h`).

The repository sample contains the class header with a few inline method
bodies (`Clear`, `ReportProximities`, both `RayHit` overloads); the
implementation files of the pipeline (`ChAABBGenerator`, `ChBroadphase`,
`ChNarrowphase`, the `.cpp` of the system class) are not part of the
sample.  Definitions for those parts are modelled from the specification
and are marked `Modelled from the spec:` in their doc comments.

Scalars are rational numbers (the C++ code uses `double`; the spec
describes the arithmetic as exact real arithmetic, and every configuration
analysed here is exactly representable).  Body transforms are taken as
translations: the claims under study involve spheres and axis-aligned
data only, for which orientation is irrelevant.
-/

namespace ChronoCollision

/-!
Rational arithmetic helpers.  The `Rat` operations `Rat.add`, `Rat.sub`,
`Rat.mul`, `Rat.div` are marked irreducible upstream, which prevents
kernel evaluation of concrete scenarios; the helpers below compute the
same rational values through `mkRat`/`Rat.divInt`, which normalize their
fraction, and are kernel-reducible.
-/

/-- Rational addition (kernel-reducible). -/
def qadd (a b : ℚ) : ℚ := mkRat (a.num * b.den + b.num * a.den) (a.den * b.den)

/-- Rational subtraction (kernel-reducible). -/
def qsub (a b : ℚ) : ℚ := mkRat (a.num * b.den - b.num * a.den) (a.den * b.den)

/-- Rational multiplication (kernel-reducible). -/
def qmul (a b : ℚ) : ℚ := mkRat (a.num * b.num) (a.den * b.den)

/-- Rational division (kernel-reducible); division by zero yields zero. -/
def qdiv (a b : ℚ) : ℚ := Rat.divInt (a.num * b.den) (a.den * b.num)

/-- Floor integer square root of a natural number, by bounded search
(kernel-reducible; exact square root on perfect squares). -/
def natSqrtFloor (n : Nat) : Nat :=
  ((List.range (n + 1)).filter fun k => decide (k * k ≤ n)).foldl max 0

/-- Floor integer square root of an integer (0 on negatives). -/
def intSqrt (n : Int) : Int := Int.ofNat (natSqrtFloor n.toNat)

/-- Rational square root: floor square root of numerator and denominator,
exact whenever both are perfect squares (every configuration analysed
here). -/
def ratSqrt (q : ℚ) : ℚ := mkRat (intSqrt q.num) (natSqrtFloor q.den)

/-- World-space 3-vector (`real3` in the C++ code), with rational scalars. -/
structure real3 where
  x : ℚ
  y : ℚ
  z : ℚ
deriving DecidableEq, Repr

/-- Componentwise vector addition. -/
def r3add (a b : real3) : real3 := ⟨qadd a.x b.x, qadd a.y b.y, qadd a.z b.z⟩

/-- Componentwise vector subtraction. -/
def r3sub (a b : real3) : real3 := ⟨qsub a.x b.x, qsub a.y b.y, qsub a.z b.z⟩

/-- Scalar multiplication. -/
def r3smul (c : ℚ) (a : real3) : real3 := ⟨qmul c a.x, qmul c a.y, qmul c a.z⟩

/-- Euclidean dot product. -/
def r3dot (a b : real3) : ℚ :=
  qadd (qadd (qmul a.x b.x) (qmul a.y b.y)) (qmul a.z b.z)

/-- Axis-aligned bounding box: world-space min/max corners. -/
structure AABB where
  bmin : real3
  bmax : real3
deriving DecidableEq, Repr

/-- Closed-interval overlap test for two AABBs (touching counts as
overlapping, per the spec's tie-break rule for broadphase). -/
def aabbOverlap (a b : AABB) : Bool :=
  (decide (a.bmin.x ≤ b.bmax.x) && decide (b.bmin.x ≤ a.bmax.x)) &&
  (decide (a.bmin.y ≤ b.bmax.y) && decide (b.bmin.y ≤ a.bmax.y)) &&
  (decide (a.bmin.z ≤ b.bmax.z) && decide (b.bmin.z ≤ a.bmax.z))

/-- Full containment of `inner` in `outer` (used by `GetOverlappingAABB`:
"bodies whose AABB is contained within the specified box"). -/
def aabbContained (inner outer : AABB) : Bool :=
  (decide (outer.bmin.x ≤ inner.bmin.x) && decide (inner.bmax.x ≤ outer.bmax.x)) &&
  (decide (outer.bmin.y ≤ inner.bmin.y) && decide (inner.bmax.y ≤ outer.bmax.y)) &&
  (decide (outer.bmin.z ≤ inner.bmin.z) && decide (inner.bmax.z ≤ outer.bmax.z))

/-- Smallest AABB containing both arguments. -/
def mergeAABB (a b : AABB) : AABB :=
  ⟨⟨min a.bmin.x b.bmin.x, min a.bmin.y b.bmin.y, min a.bmin.z b.bmin.z⟩,
   ⟨max a.bmax.x b.bmax.x, max a.bmax.y b.bmax.y, max a.bmax.z b.bmax.z⟩⟩

/-- Geometry tag and local parameters of a collision shape.  The spec's
data model lists sphere, box, capsule, cylinder, convex/mesh; the analytic
narrowphase capability table modelled here covers sphere-sphere, with all
other combinations dispatched as unsupported (skipped), which the spec
allows ("Unsupported shape-pair combination: the pair is skipped"). -/
inductive ShapeGeom
  | sphere (radius : ℚ)
  | box (hx hy hz : ℚ)
deriving DecidableEq, Repr

/-- Shape descriptor: owning body id, geometry, world position (from the
owning body's transform), and collision family/mask bits for pair
filtering. -/
structure Shape where
  bodyId : Nat
  geom : ShapeGeom
  pos : real3
  family : Nat
  mask : Nat
deriving DecidableEq, Repr

/-- Family/mask compatibility: each shape's family bit must be present in
the other's mask (the Chrono convention for "family/mask bits are
compatible"). -/
def famCompat (s1 s2 : Shape) : Bool :=
  decide (Nat.land s1.family s2.mask ≠ 0) && decide (Nat.land s2.family s1.mask ≠ 0)

/-- Half-extent of a shape's own geometry along each world axis. -/
def shapeHalfExtent : ShapeGeom → real3
  | .sphere r => ⟨r, r, r⟩
  | .box hx hy hz => ⟨hx, hy, hz⟩

/-- Modelled from the spec: the AABB generator (`ChAABBGenerator`, not in
the sample) produces, per shape, an AABB enclosing the shape's true extent
inflated by the global envelope. -/
def genAABB (envelope : ℚ) (s : Shape) : AABB :=
  let h := shapeHalfExtent s.geom
  ⟨⟨qsub (qsub s.pos.x h.x) envelope, qsub (qsub s.pos.y h.y) envelope,
    qsub (qsub s.pos.z h.z) envelope⟩,
   ⟨qadd (qadd s.pos.x h.x) envelope, qadd (qadd s.pos.y h.y) envelope,
    qadd (qadd s.pos.z h.z) envelope⟩⟩

/-- Narrowphase dispatch policy (`ChNarrowphase::Algorithm`): prefer
analytic with general fallback (HYBRID, the default) or always use the
general algorithm. -/
inductive Algorithm
  | hybrid
  | generalOnly
deriving DecidableEq, Repr

/-- Configuration record of the collision system (the spec's design note
scopes all mutable configuration into one record owned by the
orchestrator). -/
structure Config where
  envelope : ℚ
  numBins : Nat × Nat × Nat
  binsFixed : Bool
  gridDensity : ℚ
  narrowAlg : Algorithm
  nthreads : Nat
  useAabbActive : Bool
  activeMin : real3
  activeMax : real3
deriving DecidableEq, Repr

/-- Default configuration, from the header's documented defaults:
envelope 0, broadphase bins 10x10x10 kept fixed, grid density 5,
HYBRID narrowphase, active bounding box disabled. -/
def defaultConfig : Config where
  envelope := 0
  numBins := (10, 10, 10)
  binsFixed := true
  gridDensity := 5
  narrowAlg := .hybrid
  nthreads := 1
  useAabbActive := false
  activeMin := ⟨0, 0, 0⟩
  activeMax := ⟨0, 0, 0⟩

/-- Contact record produced by the narrowphase: the two shape ids, a
representative world-space contact point, a unit normal oriented from the
first shape toward the second, and the scalar penetration depth (positive
when overlapping, negative when separated but within the envelope). -/
structure Contact where
  shapeA : Nat
  shapeB : Nat
  point : real3
  normal : real3
  depth : ℚ
deriving DecidableEq, Repr

/-- State of one `ChCollisionSystemChrono` instance: the configuration, the
collision data store (shape descriptors indexed by shape id, the per-body
active flags, and the per-step derived arrays: AABBs, candidate pairs,
contacts). -/
structure SysState where
  cfg : Config
  shapes : List Shape
  bodyActive : List Bool
  aabbs : List AABB
  pairs : List (Nat × Nat)
  contacts : List Contact
deriving DecidableEq, Repr

/-- Modelled from the spec: freshly constructed system (the constructor
body is not in the sample) — default configuration, empty store. -/
def freshState : SysState where
  cfg := defaultConfig
  shapes := []
  bodyActive := []
  aabbs := []
  pairs := []
  contacts := []

/-- Modelled from the spec: `SetEnvelope` stores the global collision
envelope; a negative argument is clamped to 0 at configuration time
("Configuration errors (non-positive bin counts, negative envelope):
reject or clamp at configuration time"). -/
def SetEnvelope (s : SysState) (envelope : ℚ) : SysState :=
  { s with cfg := { s.cfg with envelope := max envelope 0 } }

/-- Modelled from the spec: `SetBroadphaseNumBins` stores the requested
grid resolution and the fixed flag; a non-positive bin count is clamped to
1 at configuration time. -/
def SetBroadphaseNumBins (s : SysState) (num_bins : Int × Int × Int) (fixed : Bool) : SysState :=
  { s with cfg := { s.cfg with
      numBins := ((max num_bins.1 1).toNat, (max num_bins.2.1 1).toNat, (max num_bins.2.2 1).toNat)
      binsFixed := fixed } }

/-- Modelled from the spec: `SetBroadphaseGridDensity` stores the target
average shapes-per-bin used for dynamic bin-count tuning. -/
def SetBroadphaseGridDensity (s : SysState) (density : ℚ) : SysState :=
  { s with cfg := { s.cfg with gridDensity := density } }

/-- Modelled from the spec: `SetNarrowphaseAlgorithm` stores the dispatch
policy. -/
def SetNarrowphaseAlgorithm (s : SysState) (algorithm : Algorithm) : SysState :=
  { s with cfg := { s.cfg with narrowAlg := algorithm } }

/-- Modelled from the spec: `SetNumThreads` stores the worker pool size. -/
def SetNumThreads (s : SysState) (nthreads : Nat) : SysState :=
  { s with cfg := { s.cfg with nthreads := nthreads } }

/-- Modelled from the spec: `EnableActiveBoundingBox` enables freezing of
bodies outside the given region and stores its extents. -/
def EnableActiveBoundingBox (s : SysState) (aabbmin aabbmax : real3) : SysState :=
  { s with cfg := { s.cfg with useAabbActive := true, activeMin := aabbmin, activeMax := aabbmax } }

/-- Modelled from the spec: `GetActiveBoundingBox` reports whether the
active-box feature is enabled and its current extents (the C++ signature
returns the flag and fills the two reference arguments). -/
def GetActiveBoundingBox (s : SysState) : Bool × real3 × real3 :=
  (s.cfg.useAabbActive, s.cfg.activeMin, s.cfg.activeMax)

/-- Embedded from the header: `Clear` has an empty body (`{}`) — it leaves
the system state unchanged. -/
def Clear (s : SysState) : SysState := s

/-- Proximity container handed to `ReportProximities`, kept abstract as a
list of near-point records. -/
structure ProximityContainer where
  entries : List (Nat × Nat × real3)
deriving DecidableEq, Repr

/-- Embedded from the header: `ReportProximities` has an empty body (`{}`,
documented "Not used") — it changes neither the system state nor the
supplied proximity container. -/
def ReportProximities (s : SysState) (container : ProximityContainer) :
    SysState × ProximityContainer :=
  (s, container)

/-- Result record of a ray-hit test (`ChRayhitResult`). -/
structure RayhitResult where
  hit : Bool
  point : real3
deriving DecidableEq, Repr

/-- Embedded from the header: the all-models `RayHit` overload is
unimplemented and returns `false` for every input, leaving the result
record as given. -/
def RayHit (rfrom rto : real3) (mresult : RayhitResult) : Bool × RayhitResult :=
  (false, mresult)

/-- Embedded from the header: the single-model `RayHit` overload is
unimplemented and returns `false` for every input, leaving the result
record as given.  The model argument is the shape id of the tested model. -/
def RayHitModel (rfrom rto : real3) (model : Nat) (mresult : RayhitResult) :
    Bool × RayhitResult :=
  (false, mresult)

/-- Modelled from the spec: per-model `Remove` is "Currently not
implemented" (header comment); the unimplemented operation fails benignly,
leaving the store unchanged and never raising a fault. -/
def Remove (s : SysState) (model : Nat) : SysState := s

/-- AABB of a body: the merge of the AABBs of its shapes (`none` when the
body owns no shape).  `aabbs` is the per-shape AABB array parallel to
`shapes`. -/
def bodyAABB (shapes : List Shape) (aabbs : List AABB) (b : Nat) : Option AABB :=
  let l := (shapes.zip aabbs).filterMap fun p => if p.1.bodyId = b then some p.2 else none
  match l with
  | [] => none
  | h :: t => some (t.foldl mergeAABB h)

/-- Modelled from the spec: the active-region filter marks inactive any
body whose AABB does not intersect the configured region; bodies already
inactive stay inactive (re-activation is external only).  When the feature
is disabled the flags are unchanged. -/
def stepActive (cfg : Config) (shapes : List Shape) (aabbs : List AABB)
    (prev : List Bool) : List Bool :=
  if cfg.useAabbActive then
    (List.range prev.length).map fun b =>
      prev.getD b true &&
        match bodyAABB shapes aabbs b with
        | none => true
        | some bb => aabbOverlap bb ⟨cfg.activeMin, cfg.activeMax⟩
  else prev

/-- Shape-id-tagged entries of the data store: `(shape id, shape, AABB)`. -/
def shapeEntries (shapes : List Shape) (aabbs : List AABB) : List (Nat × Shape × AABB) :=
  (shapes.zip aabbs).enum.map fun p => (p.1, p.2.1, p.2.2)

/-- Entries of shapes whose owning body is active (inactive bodies are
retained in the store but excluded from broadphase binning). -/
def activeEntries (shapes : List Shape) (aabbs : List AABB) (act : List Bool) :
    List (Nat × Shape × AABB) :=
  (shapeEntries shapes aabbs).filter fun t => act.getD t.2.1.bodyId true

/-- Integer cube root (rounded up): smallest `k` with `n ≤ k³`, used by the
dynamic bin-count heuristic. -/
def natCbrtCeil (n : Nat) : Nat :=
  ((List.range (n + 2)).find? fun k => decide (n ≤ k * k * k)).getD 1

/-- Modelled from the spec: grid bin counts — the explicit `(nx,ny,nz)`
when fixed, otherwise recomputed from the target density (average
shapes-per-bin) with an equal per-axis split. -/
def gridDims (cfg : Config) (nshapes : Nat) : Nat × Nat × Nat :=
  if cfg.binsFixed then cfg.numBins
  else
    let target : Nat :=
      if cfg.gridDensity ≤ 0 then nshapes
      else (qdiv (mkRat (Int.ofNat nshapes) 1) cfg.gridDensity).ceil.toNat
    let n := max 1 (natCbrtCeil target)
    (n, n, n)

/-- Bin index of coordinate `q` along one axis: world extent `[glo, ...]`
divided by the bin size, clamped to `[0, n-1]`. -/
def binIndex (glo size : ℚ) (n : Nat) (q : ℚ) : Nat :=
  if size ≤ 0 then 0 else min (n - 1) (Int.toNat (qdiv (qsub q glo) size).floor)

/-- Inclusive range of bin coordinates overlapped by an AABB, per axis:
`((xlo,xhi),(ylo,yhi),(zlo,zhi))`. -/
def binRange (g : AABB) (n : Nat × Nat × Nat) (box : AABB) :
    (Nat × Nat) × (Nat × Nat) × (Nat × Nat) :=
  let sx := qdiv (qsub g.bmax.x g.bmin.x) (mkRat (Int.ofNat n.1) 1)
  let sy := qdiv (qsub g.bmax.y g.bmin.y) (mkRat (Int.ofNat n.2.1) 1)
  let sz := qdiv (qsub g.bmax.z g.bmin.z) (mkRat (Int.ofNat n.2.2) 1)
  ((binIndex g.bmin.x sx n.1 box.bmin.x, binIndex g.bmin.x sx n.1 box.bmax.x),
   (binIndex g.bmin.y sy n.2.1 box.bmin.y, binIndex g.bmin.y sy n.2.1 box.bmax.y),
   (binIndex g.bmin.z sz n.2.2 box.bmin.z, binIndex g.bmin.z sz n.2.2 box.bmax.z))

/-- Whether an AABB's bin range covers the grid cell `c`. -/
def inBin (g : AABB) (n : Nat × Nat × Nat) (box : AABB) (c : Nat × Nat × Nat) : Bool :=
  let r := binRange g n box
  decide (r.1.1 ≤ c.1) && decide (c.1 ≤ r.1.2) &&
  (decide (r.2.1.1 ≤ c.2.1) && decide (c.2.1 ≤ r.2.1.2)) &&
  (decide (r.2.2.1 ≤ c.2.2) && decide (c.2.2 ≤ r.2.2.2))

/-- All grid cell coordinates of an `nx × ny × nz` grid. -/
def allBins (n : Nat × Nat × Nat) : List (Nat × Nat × Nat) :=
  (List.range n.1).flatMap fun i =>
    (List.range n.2.1).flatMap fun j =>
      (List.range n.2.2).map fun k => (i, j, k)

/-- All ordered pairs `(a, b)` with `b` occurring after `a` in the list:
the unordered intra-bin pairs, each produced once per bin. -/
def pairsOf {α : Type} : List α → List (α × α)
  | [] => []
  | a :: rest => (rest.map fun b => (a, b)) ++ pairsOf rest

/-- Normalized unordered shape-id pair (smaller id first). -/
def normPair (a b : Nat) : Nat × Nat := if a ≤ b then (a, b) else (b, a)

/-- Overall AABB of a list of boxes (`none` when empty). -/
def overallAABB : List AABB → Option AABB
  | [] => none
  | h :: t => some (t.foldl mergeAABB h)

/-- Modelled from the spec: the broadphase (`ChBroadphase`, not in the
sample).  It computes the overall extent of the active shapes' AABBs,
derives the grid dimensions, bins every shape into each cell its AABB
overlaps, emits for every bin the unordered intra-bin pairs whose
family/mask bits are compatible and whose AABBs overlap (candidate pairs
are "pairs of shape ids whose AABBs overlap"), and deduplicates pairs that
share several bins. -/
def broadphase (cfg : Config) (entries : List (Nat × Shape × AABB)) : List (Nat × Nat) :=
  match overallAABB (entries.map fun t => t.2.2) with
  | none => []
  | some g =>
    let n := gridDims cfg entries.length
    (((allBins n).flatMap fun c =>
        (pairsOf (entries.filter fun t => inBin g n t.2.2 c)).filterMap fun ab =>
          if famCompat ab.1.2.1 ab.2.2.1 && aabbOverlap ab.1.2.2 ab.2.2.2 then
            some (normPair ab.1.1 ab.2.1)
          else none)).dedup

/-- Modelled from the spec: analytic sphere-sphere narrowphase.  A contact
exists when the signed gap (center distance minus the radii sum minus the
combined envelope) is ≤ 0, tested squared to stay exact.  The reported
data use the exact Euclidean center distance (`ratSqrt` is exact whenever
the squared distance has square numerator and denominator, which holds in
every configuration analysed here): depth is the radii sum minus the
distance (positive = overlapping, negative = separated-but-within-
envelope), the unit normal points from the first shape toward the second,
and the representative point is the midpoint of the two surface points.
Concentric spheres (distance 0) have no well-defined normal and produce no
contact. -/
def sphereSphereContact (envelope : ℚ) (p1 : real3) (r1 : ℚ) (p2 : real3) (r2 : ℚ) :
    Option (real3 × real3 × ℚ) :=
  let d := r3sub p2 p1
  let dist2 := r3dot d d
  let reach := qadd (qadd r1 r2) envelope
  if dist2 ≤ qmul reach reach then
    let dist := ratSqrt dist2
    if dist = 0 then none
    else
      let nrm := r3smul (qdiv 1 dist) d
      let depth := qsub (qadd r1 r2) dist
      let point := r3add p1 (r3smul (qsub r1 (qdiv depth 2)) nrm)
      some (point, nrm, depth)
  else none

/-- Modelled from the spec: narrowphase evaluation of one candidate pair —
dispatch by shape-type pair; the analytic sphere-sphere algorithm for two
spheres (HYBRID and the general algorithm agree on spheres), every other
combination unsupported and skipped. -/
def narrowphaseOne (cfg : Config) (shapes : List Shape) (pr : Nat × Nat) : Option Contact :=
  match shapes.get? pr.1, shapes.get? pr.2 with
  | some s1, some s2 =>
    match s1.geom, s2.geom with
    | .sphere r1, .sphere r2 =>
      (sphereSphereContact cfg.envelope s1.pos r1 s2.pos r2).map fun pnd =>
        { shapeA := pr.1, shapeB := pr.2, point := pnd.1, normal := pnd.2.1, depth := pnd.2.2 }
    | _, _ => none
  | _, _ => none

/-- Chunking of a work list for the fork-join parallel-for, with explicit
fuel (the list length bounds the number of chunks). -/
def chunkListAux {α : Type} : Nat → Nat → List α → List (List α)
  | 0, _, l => [l]
  | _ + 1, _, [] => []
  | fuel + 1, c, l@(_ :: _) => l.take c :: chunkListAux fuel c (l.drop c)

/-- Split a work list into chunks of size `c` (workers' slices). -/
def chunkList {α : Type} (c : Nat) (l : List α) : List (List α) :=
  chunkListAux l.length c l

/-- Modelled from the spec: the narrowphase stage — the candidate list is
split into per-worker slices sized by the thread count, each worker
evaluates its slice independently, and the per-worker output buffers are
concatenated in worker order into the shared contact list. -/
def narrowphaseRun (cfg : Config) (shapes : List Shape) (prs : List (Nat × Nat)) :
    List Contact :=
  let c := max 1 ((prs.length + cfg.nthreads - 1) / max 1 cfg.nthreads)
  ((chunkList c prs).map fun chunk => chunk.filterMap (narrowphaseOne cfg shapes)).flatten

/-- Reference sequential narrowphase: evaluate the candidate list in order
on one worker. -/
def seqContacts (cfg : Config) (shapes : List Shape) (prs : List (Nat × Nat)) :
    List Contact :=
  prs.filterMap (narrowphaseOne cfg shapes)

/-- Modelled from the spec: `Run` executes one full pass of the pipeline —
generate inflated AABBs, apply the active-region filter, broadphase the
active shapes into candidate pairs, narrowphase every candidate pair —
overwriting the per-step derived data in the store. -/
def Run (s : SysState) : SysState :=
  let aabbs := s.shapes.map (genAABB s.cfg.envelope)
  let act := stepActive s.cfg s.shapes aabbs s.bodyActive
  let prs := broadphase s.cfg (activeEntries s.shapes aabbs act)
  let cts := narrowphaseRun s.cfg s.shapes prs
  { s with bodyActive := act, aabbs := aabbs, pairs := prs, contacts := cts }

/-- Embedded from the header: `GetOverlappingPairs` returns the stored
pairs of ids of overlapping contact shapes from the last broadphase. -/
def GetOverlappingPairs (s : SysState) : List (Nat × Nat) := s.pairs

/-- Modelled from the spec: `GetOverlappingAABB` marks, per body id,
whether the body's AABB is fully contained within the caller-supplied box
`[Amin, Amax]` (bodies without shapes are not marked).  It recomputes the
shape AABBs with the current envelope, like `Run` does. -/
def GetOverlappingAABB (s : SysState) (Amin Amax : real3) : List Bool :=
  let aabbs := s.shapes.map (genAABB s.cfg.envelope)
  (List.range s.bodyActive.length).map fun b =>
    match bodyAABB s.shapes aabbs b with
    | none => false
    | some bb => aabbContained bb ⟨Amin, Amax⟩

/-- Scenario A of the spec: two spheres of radius 1, centered at
`(0,0,0)` and `(0,0,1.5)`, envelope 0, one shape per body, mutually
compatible family/mask bits, a 2x2x2 fixed broadphase grid. -/
def scenarioA : SysState where
  cfg := { defaultConfig with numBins := (2, 2, 2) }
  shapes := [⟨0, .sphere 1, ⟨0, 0, 0⟩, 1, 1⟩, ⟨1, .sphere 1, ⟨0, 0, mkRat 3 2⟩, 1, 1⟩]
  bodyActive := [true, true]
  aabbs := []
  pairs := []
  contacts := []

/-- Scenario B of the spec: the same two spheres moved to `(0,0,0)` and
`(0,0,3)`, whose inflated AABBs are disjoint. -/
def scenarioB : SysState where
  cfg := { defaultConfig with numBins := (2, 2, 2) }
  shapes := [⟨0, .sphere 1, ⟨0, 0, 0⟩, 1, 1⟩, ⟨1, .sphere 1, ⟨0, 0, 3⟩, 1, 1⟩]
  bodyActive := [true, true]
  aabbs := []
  pairs := []
  contacts := []

/-- Scenario D of the spec: active region `[-5,-5,-5]` to `[5,5,5]`;
body 0 is a unit sphere centered at `(10,0,0)` (AABB fully outside the
region), bodies 1 and 2 are unit spheres near the origin that remain
active and in contact with each other. -/
def scenarioD : SysState where
  cfg := { defaultConfig with
    numBins := (2, 2, 2)
    useAabbActive := true
    activeMin := ⟨-5, -5, -5⟩
    activeMax := ⟨5, 5, 5⟩ }
  shapes := [⟨0, .sphere 1, ⟨10, 0, 0⟩, 1, 1⟩, ⟨1, .sphere 1, ⟨0, 0, 0⟩, 1, 1⟩,
             ⟨2, .sphere 1, ⟨0, 0, mkRat 3 2⟩, 1, 1⟩]
  bodyActive := [true, true, true]
  aabbs := []
  pairs := []
  contacts := []

/-- Validity of a stored configuration: nonnegative envelope and at least
one bin along every grid axis — what a consistent broadphase grid needs. -/
def configValid (cfg : Config) : Prop :=
  0 ≤ cfg.envelope ∧ 1 ≤ cfg.numBins.1 ∧ 1 ≤ cfg.numBins.2.1 ∧ 1 ≤ cfg.numBins.2.2

instance (cfg : Config) : Decidable (configValid cfg) := by
  unfold configValid; infer_instance

/-!  ### Helper lemmas  -/

theorem chunkListAux_flatten {α : Type} (fuel c : Nat) (l : List α) :
    (chunkListAux fuel c l).flatten = l := by
  induction fuel generalizing l with
  | zero => simp [chunkListAux]
  | succ n ih =>
    cases l with
    | nil => simp [chunkListAux]
    | cons a t => simp [chunkListAux, ih]

theorem chunkList_flatten {α : Type} (c : Nat) (l : List α) :
    (chunkList c l).flatten = l :=
  chunkListAux_flatten _ _ _

theorem narrowphaseRun_eq_seq (cfg : Config) (shapes : List Shape)
    (prs : List (Nat × Nat)) :
    narrowphaseRun cfg shapes prs = seqContacts cfg shapes prs := by
  unfold narrowphaseRun seqContacts
  rw [← List.filterMap_flatten, chunkList_flatten]

theorem mem_pairsOf {α : Type} {l : List α} {p : α × α} (h : p ∈ pairsOf l) :
    p.1 ∈ l ∧ p.2 ∈ l := by
  induction l with
  | nil => simp [pairsOf] at h
  | cons a t ih =>
    simp only [pairsOf, List.mem_append, List.mem_map] at h
    rcases h with ⟨b, hb, rfl⟩ | h
    · exact ⟨List.mem_cons_self _ _, List.mem_cons_of_mem _ hb⟩
    · exact ⟨List.mem_cons_of_mem _ (ih h).1, List.mem_cons_of_mem _ (ih h).2⟩

theorem pairsOf_pairwise {α : Type} {R : α → α → Prop} {l : List α}
    (hl : l.Pairwise R) {p : α × α} (h : p ∈ pairsOf l) : R p.1 p.2 := by
  induction l with
  | nil => simp [pairsOf] at h
  | cons a t ih =>
    simp only [pairsOf, List.mem_append, List.mem_map] at h
    rcases List.pairwise_cons.mp hl with ⟨ha, ht⟩
    rcases h with ⟨b, hb, rfl⟩ | h
    · exact ha b hb
    · exact ih ht h

theorem shapeEntries_pairwise (shapes : List Shape) (aabbs : List AABB) :
    (shapeEntries shapes aabbs).Pairwise fun a b => a.1 < b.1 := by
  unfold shapeEntries
  rw [List.pairwise_map]
  have h1 : (((shapes.zip aabbs).enum).map Prod.fst).Pairwise (· < ·) := by
    rw [List.enum_eq_zip_range, List.map_fst_zip _ _ (by simp)]
    exact List.pairwise_lt_range _
  rw [List.pairwise_map] at h1
  exact h1

theorem get?_zip_eq_some {α β : Type} {l₁ : List α} {l₂ : List β} {i : Nat}
    {p : α × β} :
    (l₁.zip l₂).get? i = some p ↔ l₁.get? i = some p.1 ∧ l₂.get? i = some p.2 := by
  induction l₁ generalizing l₂ i with
  | nil => simp [List.zip]
  | cons a t ih =>
    cases l₂ with
    | nil => simp [List.zip]
    | cons b t₂ =>
      cases i with
      | zero =>
        simp only [List.zip_cons_cons, List.get?]
        constructor
        · rintro h; cases p; cases h; simp_all
        · rintro ⟨h1, h2⟩; cases h1; cases h2; rfl
      | succ n => simpa [List.zip_cons_cons, List.get?] using ih

theorem mem_shapeEntries {shapes : List Shape} {aabbs : List AABB}
    {t : Nat × Shape × AABB} (h : t ∈ shapeEntries shapes aabbs) :
    shapes.get? t.1 = some t.2.1 ∧ aabbs.get? t.1 = some t.2.2 := by
  unfold shapeEntries at h
  rcases List.mem_map.mp h with ⟨p, hp, rfl⟩
  have := List.mem_enum_iff_get?.mp hp
  exact get?_zip_eq_some.mp this

theorem mem_activeEntries {shapes : List Shape} {aabbs : List AABB}
    {act : List Bool} {t : Nat × Shape × AABB}
    (h : t ∈ activeEntries shapes aabbs act) :
    (shapes.get? t.1 = some t.2.1 ∧ aabbs.get? t.1 = some t.2.2) ∧
      act.getD t.2.1.bodyId true = true := by
  unfold activeEntries at h
  rcases List.mem_filter.mp h with ⟨h1, h2⟩
  exact ⟨mem_shapeEntries h1, h2⟩

theorem activeEntries_pairwise (shapes : List Shape) (aabbs : List AABB)
    (act : List Bool) :
    (activeEntries shapes aabbs act).Pairwise fun a b => a.1 < b.1 :=
  (shapeEntries_pairwise shapes aabbs).filter _

theorem mem_broadphase {cfg : Config} {entries : List (Nat × Shape × AABB)}
    {p : Nat × Nat} (hpw : entries.Pairwise fun a b => a.1 < b.1)
    (h : p ∈ broadphase cfg entries) :
    ∃ t1 t2, t1 ∈ entries ∧ t2 ∈ entries ∧
      famCompat t1.2.1 t2.2.1 = true ∧ aabbOverlap t1.2.2 t2.2.2 = true ∧
      p = (t1.1, t2.1) ∧ t1.1 < t2.1 := by
  unfold broadphase at h
  rcases hg : overallAABB (entries.map fun t => t.2.2) with _ | g
  · rw [hg] at h; simp at h
  rw [hg] at h
  rw [List.mem_dedup] at h
  rcases List.mem_flatMap.mp h with ⟨c, _, hc⟩
  rcases List.mem_filterMap.mp hc with ⟨ab, hab, hemit⟩
  by_cases hcond : (famCompat ab.1.2.1 ab.2.2.1 && aabbOverlap ab.1.2.2 ab.2.2.2) = true
  · rw [if_pos hcond] at hemit
    simp only [Bool.and_eq_true] at hcond
    rcases hcond with ⟨hfam, hov⟩
    have hmem := mem_pairsOf hab
    have hlt : ab.1.1 < ab.2.1 :=
      pairsOf_pairwise (hpw.filter _) hab
    refine ⟨ab.1, ab.2, ?_, ?_, hfam, hov, ?_, hlt⟩
    · exact (List.mem_filter.mp hmem.1).1
    · exact (List.mem_filter.mp hmem.2).1
    · have hnp : normPair ab.1.1 ab.2.1 = (ab.1.1, ab.2.1) := by
        unfold normPair; rw [if_pos (Nat.le_of_lt hlt)]
      rw [← Option.some_inj.mp hemit, hnp]
  · rw [if_neg hcond] at hemit; cases hemit

theorem narrowphaseOne_ids {cfg : Config} {shapes : List Shape}
    {p : Nat × Nat} {c : Contact} (h : narrowphaseOne cfg shapes p = some c) :
    c.shapeA = p.1 ∧ c.shapeB = p.2 := by
  unfold narrowphaseOne at h
  split at h
  · split at h
    · rcases Option.map_eq_some'.mp h with ⟨pnd, _, rfl⟩
      exact ⟨rfl, rfl⟩
    · cases h
  · cases h

theorem aabbOverlap_true_comm {a b : AABB} (h : aabbOverlap a b = true) :
    aabbOverlap b a = true := by
  simp only [aabbOverlap, Bool.and_eq_true, decide_eq_true_eq] at h ⊢
  tauto

theorem Run_shapes (s : SysState) : (Run s).shapes = s.shapes := rfl

theorem Run_cfg (s : SysState) : (Run s).cfg = s.cfg := rfl

theorem Run_bodyActive (s : SysState) :
    (Run s).bodyActive =
      stepActive s.cfg s.shapes (s.shapes.map (genAABB s.cfg.envelope)) s.bodyActive := rfl

theorem Run_pairs (s : SysState) :
    (Run s).pairs =
      broadphase s.cfg
        (activeEntries s.shapes (s.shapes.map (genAABB s.cfg.envelope))
          (Run s).bodyActive) := rfl

theorem Run_contacts (s : SysState) :
    (Run s).contacts = narrowphaseRun s.cfg s.shapes (Run s).pairs := rfl

theorem stepActive_length (cfg : Config) (shapes : List Shape) (aabbs : List AABB)
    (prev : List Bool) : (stepActive cfg shapes aabbs prev).length = prev.length := by
  unfold stepActive
  split
  · simp
  · rfl

theorem stepActive_get? {cfg : Config} {shapes : List Shape} {aabbs : List AABB}
    {prev : List Bool} {b : Nat} (hen : cfg.useAabbActive = true)
    (hb : b < prev.length) :
    (stepActive cfg shapes aabbs prev).get? b =
      some (prev.getD b true &&
        match bodyAABB shapes aabbs b with
        | none => true
        | some bb => aabbOverlap bb ⟨cfg.activeMin, cfg.activeMax⟩) := by
  unfold stepActive
  rw [if_pos hen, List.get?_map, List.get?_range hb]
  rfl

theorem mem_run_contacts {s : SysState} {c : Contact}
    (h : c ∈ (Run s).contacts) :
    ∃ p ∈ (Run s).pairs, narrowphaseOne s.cfg s.shapes p = some c := by
  rw [Run_contacts, narrowphaseRun_eq_seq] at h
  exact List.mem_filterMap.mp h

theorem run_flag_false {u : SysState} {b : Nat} {bb : AABB}
    (hen : u.cfg.useAabbActive = true)
    (hb : b < u.bodyActive.length)
    (hbb : bodyAABB u.shapes (u.shapes.map (genAABB u.cfg.envelope)) b = some bb)
    (hout : aabbOverlap bb ⟨u.cfg.activeMin, u.cfg.activeMax⟩ = false) :
    (Run u).bodyActive.getD b true = false := by
  rw [Run_bodyActive, List.getD_eq_get?, stepActive_get? hen hb, hbb]
  simp [hout]

theorem run_flag_preserved {u : SysState} {b' : Nat} {bb' : AABB}
    (hbb : bodyAABB u.shapes (u.shapes.map (genAABB u.cfg.envelope)) b' = some bb')
    (hin : aabbOverlap bb' ⟨u.cfg.activeMin, u.cfg.activeMax⟩ = true) :
    (Run u).bodyActive.getD b' true = u.bodyActive.getD b' true := by
  rw [Run_bodyActive]
  by_cases hen : u.cfg.useAabbActive = true
  · by_cases hb : b' < u.bodyActive.length
    · rw [List.getD_eq_get?, stepActive_get? hen hb, hbb]
      simp [hin, List.getD_eq_get?]
    · have h1 : u.bodyActive.length ≤ b' := Nat.le_of_not_lt hb
      have h2 : (stepActive u.cfg u.shapes (u.shapes.map (genAABB u.cfg.envelope))
          u.bodyActive).length ≤ b' := by
        rw [stepActive_length]; exact h1
      rw [List.getD_eq_get?, List.getD_eq_get?, List.get?_eq_none.mpr h1,
        List.get?_eq_none.mpr h2]
  · unfold stepActive
    rw [if_neg hen]

theorem run_pair_body_active {u : SysState} {p : Nat × Nat}
    (hp : p ∈ (Run u).pairs) :
    (∃ sh1, u.shapes.get? p.1 = some sh1 ∧
        (Run u).bodyActive.getD sh1.bodyId true = true) ∧
    (∃ sh2, u.shapes.get? p.2 = some sh2 ∧
        (Run u).bodyActive.getD sh2.bodyId true = true) := by
  rw [Run_pairs] at hp
  rcases mem_broadphase (activeEntries_pairwise _ _ _) hp with
    ⟨t1, t2, ht1, ht2, _, _, hids, _⟩
  rcases mem_activeEntries ht1 with ⟨⟨hs1, _⟩, ha1⟩
  rcases mem_activeEntries ht2 with ⟨⟨hs2, _⟩, ha2⟩
  subst hids
  exact ⟨⟨t1.2.1, hs1, ha1⟩, ⟨t2.2.1, hs2, ha2⟩⟩

theorem iterate_Run_fields (s : SysState) (n : Nat) :
    (Run^[n] s).shapes = s.shapes ∧ (Run^[n] s).cfg = s.cfg ∧
      (Run^[n] s).bodyActive.length = s.bodyActive.length := by
  induction n with
  | zero => exact ⟨rfl, rfl, rfl⟩
  | succ m ih =>
    rw [Function.iterate_succ_apply']
    refine ⟨?_, ?_, ?_⟩
    · rw [Run_shapes, ih.1]
    · rw [Run_cfg, ih.2.1]
    · rw [Run_bodyActive, stepActive_length, ih.2.2]

/-- C3: for two spheres of radius 1 centered at `(0,0,0)` and `(0,0,1.5)`
with envelope 0, one `Run` produces exactly one contact, with penetration
depth `0.5` and unit normal `(0,0,1)` oriented from the first shape toward
the second. -/
theorem scenarioA_single_contact :
    (Run scenarioA).contacts =
      [⟨0, 1, ⟨0, 0, mkRat 3 4⟩, ⟨0, 0, 1⟩, mkRat 1 2⟩] := by decide

/-- C5: the contact list produced by `Run` is a function of the input
state alone — for every thread count the fork-join chunked narrowphase
merge equals the sequential evaluation — so two executions of `Run` on the
same state with the same (indeed even a different) thread count produce
the identical contact set. -/
theorem run_deterministic (s : SysState) (t1 t2 : Nat) :
    (Run (SetNumThreads s t1)).contacts = (Run (SetNumThreads s t2)).contacts := by
  rw [Run_contacts, Run_contacts, narrowphaseRun_eq_seq, narrowphaseRun_eq_seq]
  rfl

/-- C6: the unimplemented operations fail by returning their sentinel
failure value and never fault: both `RayHit` overloads return `false` for
every input (leaving the result record untouched), and per-model `Remove`
leaves the system state unchanged. -/
theorem unimplemented_ops_benign :
    (∀ f t r, RayHit f t r = (false, r)) ∧
    (∀ f t m r, RayHitModel f t m r = (false, r)) ∧
    (∀ s m, Remove s m = s) :=
  ⟨fun _ _ _ => rfl, fun _ _ _ _ => rfl, fun _ _ => rfl⟩

/-- C8: configuration errors are clamped at configuration time — starting
from any valid stored configuration, a freshly constructed system is
valid, `SetEnvelope` with any (possibly negative) argument leaves a valid
envelope, and `SetBroadphaseNumBins` with any (possibly non-positive) bin
counts leaves at least one bin per axis, so no subsequent broadphase runs
on an inconsistent grid. -/
theorem config_errors_clamped (s : SysState) (h : configValid s.cfg) :
    configValid freshState.cfg ∧
    (∀ e, configValid (SetEnvelope s e).cfg) ∧
    (∀ nb f, configValid (SetBroadphaseNumBins s nb f).cfg) := by
  refine ⟨by decide, fun e => ⟨le_max_right _ _, h.2.1, h.2.2.1, h.2.2.2⟩, fun nb f => ?_⟩
  refine ⟨h.1, ?_, ?_, ?_⟩ <;>
    exact Int.toNat_le_toNat (le_max_right _ 1)

theorem config_errors_clamped_witness :
    configValid freshState.cfg ∧
    (configValid freshState.cfg ∧
      (∀ e, configValid (SetEnvelope freshState e).cfg) ∧
      (∀ nb f, configValid (SetBroadphaseNumBins freshState nb f).cfg)) :=
  ⟨by decide, config_errors_clamped freshState (by decide)⟩

/-- C9: on a freshly constructed system the active-bounding-box feature is
disabled (`GetActiveBoundingBox` reports `false`), and after any
`EnableActiveBoundingBox(min, max)` it reports `true` together with
exactly the extents most recently passed. -/
theorem active_bounding_box_roundtrip :
    GetActiveBoundingBox freshState = (false, ⟨0, 0, 0⟩, ⟨0, 0, 0⟩) ∧
    ∀ s a b, GetActiveBoundingBox (EnableActiveBoundingBox s a b) = (true, a, b) :=
  ⟨rfl, fun _ _ _ => rfl⟩

/-- C10: `Clear` and `ReportProximities` are no-ops — `Clear` leaves every
component of the system state unchanged, and `ReportProximities` leaves
both the state and the supplied proximity container unchanged. -/
theorem clear_and_report_proximities_noop :
    (∀ s, Clear s = s) ∧ (∀ s c, ReportProximities s c = (s, c)) :=
  ⟨fun _ => rfl, fun _ _ => rfl⟩

theorem broadphase_nodup (cfg : Config) (entries : List (Nat × Shape × AABB)) :
    (broadphase cfg entries).Nodup := by
  unfold broadphase
  split
  · exact List.nodup_nil
  · exact List.nodup_dedup _

/-- C2: after a broadphase invocation, the candidate-pair list contains
each unordered pair of shape ids at most once (the list has no duplicates
and every pair is stored with the smaller id first), and every pair's two
members pass the family/mask compatibility filter. -/
theorem broadphase_pairs_nodup_and_filtered (s : SysState) :
    (GetOverlappingPairs (Run s)).Nodup ∧
    ∀ p ∈ GetOverlappingPairs (Run s), p.1 < p.2 ∧
      ∃ s1 s2, s.shapes.get? p.1 = some s1 ∧ s.shapes.get? p.2 = some s2 ∧
        famCompat s1 s2 = true := by
  constructor
  · exact broadphase_nodup _ _
  · intro p hp
    rcases mem_broadphase (activeEntries_pairwise _ _ _) hp with
      ⟨t1, t2, ht1, ht2, hfam, _, hids, hlt⟩
    rcases mem_activeEntries ht1 with ⟨⟨hs1, _⟩, _⟩
    rcases mem_activeEntries ht2 with ⟨⟨hs2, _⟩, _⟩
    subst hids
    exact ⟨hlt, t1.2.1, t2.2.1, hs1, hs2, hfam⟩

/-- C1: broadphase soundness as seen from the narrowphase output — for any
two stored shapes whose envelope-inflated AABBs do not overlap, `Run`
produces no contact for that pair, in either orientation. -/
theorem narrowphase_subset_aabb_overlap (s : SysState) (i j : Nat) (si sj : Shape)
    (hi : s.shapes.get? i = some si) (hj : s.shapes.get? j = some sj)
    (hov : aabbOverlap (genAABB s.cfg.envelope si) (genAABB s.cfg.envelope sj) = false) :
    ∀ c ∈ (Run s).contacts,
      ¬(c.shapeA = i ∧ c.shapeB = j) ∧ ¬(c.shapeA = j ∧ c.shapeB = i) := by
  intro c hc
  rcases mem_run_contacts hc with ⟨p, hp, hnp⟩
  rcases narrowphaseOne_ids hnp with ⟨hA, hB⟩
  rw [Run_pairs] at hp
  rcases mem_broadphase (activeEntries_pairwise _ _ _) hp with
    ⟨t1, t2, ht1, ht2, _, hovt, hids, _⟩
  rcases mem_activeEntries ht1 with ⟨⟨hs1, hab1⟩, _⟩
  rcases mem_activeEntries ht2 with ⟨⟨hs2, hab2⟩, _⟩
  rw [List.get?_map, hs1, Option.map_some'] at hab1
  rw [List.get?_map, hs2, Option.map_some'] at hab2
  have ea1 : t1.2.2 = genAABB s.cfg.envelope t1.2.1 := (Option.some_inj.mp hab1).symm
  have ea2 : t2.2.2 = genAABB s.cfg.envelope t2.2.1 := (Option.some_inj.mp hab2).symm
  rw [ea1, ea2] at hovt
  constructor
  · rintro ⟨hci, hcj⟩
    have h1 : t1.1 = i := by rw [← hci, hA, hids]
    have h2 : t2.1 = j := by rw [← hcj, hB, hids]
    rw [h1, hi] at hs1
    rw [h2, hj] at hs2
    rw [← Option.some_inj.mp hs1, ← Option.some_inj.mp hs2] at hovt
    rw [hovt] at hov
    exact Bool.noConfusion hov
  · rintro ⟨hcj, hci⟩
    have h1 : t1.1 = j := by rw [← hcj, hA, hids]
    have h2 : t2.1 = i := by rw [← hci, hB, hids]
    rw [h1, hj] at hs1
    rw [h2, hi] at hs2
    rw [← Option.some_inj.mp hs1, ← Option.some_inj.mp hs2] at hovt
    rw [aabbOverlap_true_comm hovt] at hov
    exact Bool.noConfusion hov

/-- C4: `GetOverlappingAABB` marks exactly the bodies whose AABB is fully
contained in the caller-supplied box `[Amin, Amax]`: a body id is marked
if and only if it owns shapes and its merged AABB satisfies all six
containment inequalities. -/
theorem get_overlapping_aabb_exact (s : SysState) (Amin Amax : real3) (b : Nat)
    (hb : b < s.bodyActive.length) :
    ((GetOverlappingAABB s Amin Amax).getD b false = true ↔
      ∃ bb, bodyAABB s.shapes (s.shapes.map (genAABB s.cfg.envelope)) b = some bb ∧
        Amin.x ≤ bb.bmin.x ∧ Amin.y ≤ bb.bmin.y ∧ Amin.z ≤ bb.bmin.z ∧
        bb.bmax.x ≤ Amax.x ∧ bb.bmax.y ≤ Amax.y ∧ bb.bmax.z ≤ Amax.z) := by
  unfold GetOverlappingAABB
  rw [List.getD_eq_get?, List.get?_map, List.get?_range hb, Option.map_some',
    Option.getD_some]
  rcases h : bodyAABB s.shapes (s.shapes.map (genAABB s.cfg.envelope)) b with _ | bb
  · simp [h]
  · simp only [h, aabbContained, Bool.and_eq_true, decide_eq_true_eq,
      Option.some_inj]
    constructor
    · rintro ⟨⟨⟨h1, h2⟩, h3, h4⟩, h5, h6⟩
      exact ⟨bb, rfl, h1, h3, h5, h2, h4, h6⟩
    · rintro ⟨bb', hbb', h1, h3, h5, h2, h4, h6⟩
      subst hbb'
      exact ⟨⟨⟨h1, h2⟩, h3, h4⟩, h5, h6⟩

/-- C7: with the active bounding box enabled and a body whose AABB lies
fully outside the region, every subsequent `Run` (there is no internal
re-activation) leaves that body flagged inactive, no candidate pair
reported by `GetOverlappingPairs` involves any of its shapes, and the
active flag of every body whose AABB intersects the region is unchanged. -/
theorem active_box_excludes_body (s : SysState) (b : Nat) (bb : AABB)
    (hen : s.cfg.useAabbActive = true)
    (hb : b < s.bodyActive.length)
    (hbb : bodyAABB s.shapes (s.shapes.map (genAABB s.cfg.envelope)) b = some bb)
    (hout : aabbOverlap bb ⟨s.cfg.activeMin, s.cfg.activeMax⟩ = false) :
    ∀ n, 0 < n →
      (Run^[n] s).bodyActive.getD b true = false ∧
      (∀ p ∈ GetOverlappingPairs (Run^[n] s), ∀ sh,
        (s.shapes.get? p.1 = some sh ∨ s.shapes.get? p.2 = some sh) →
        sh.bodyId ≠ b) ∧
      (∀ b' bb', bodyAABB s.shapes (s.shapes.map (genAABB s.cfg.envelope)) b' = some bb' →
        aabbOverlap bb' ⟨s.cfg.activeMin, s.cfg.activeMax⟩ = true →
        (Run^[n] s).bodyActive.getD b' true = s.bodyActive.getD b' true) := by
  intro n hn
  induction n with
  | zero => cases hn
  | succ m ih =>
    obtain ⟨hsh, hcf, hlen⟩ := iterate_Run_fields s m
    rw [Function.iterate_succ_apply']
    have hen' : (Run^[m] s).cfg.useAabbActive = true := by rw [hcf]; exact hen
    have hb' : b < (Run^[m] s).bodyActive.length := by rw [hlen]; exact hb
    have hbb' : bodyAABB (Run^[m] s).shapes
        ((Run^[m] s).shapes.map (genAABB (Run^[m] s).cfg.envelope)) b = some bb := by
      rw [hsh, hcf]; exact hbb
    have hout' : aabbOverlap bb ⟨(Run^[m] s).cfg.activeMin, (Run^[m] s).cfg.activeMax⟩ =
        false := by rw [hcf]; exact hout
    have hflag := run_flag_false hen' hb' hbb' hout'
    refine ⟨hflag, ?_, ?_⟩
    · intro p hp sh hmem heq
      rcases run_pair_body_active hp with ⟨⟨sh1, hgs1, hact1⟩, ⟨sh2, hgs2, hact2⟩⟩
      rw [hsh] at hgs1 hgs2
      rcases hmem with h | h
      · have hsheq : sh = sh1 := Option.some_inj.mp (h.symm.trans hgs1)
        rw [← hsheq, heq, hflag] at hact1
        exact Bool.noConfusion hact1
      · have hsheq : sh = sh2 := Option.some_inj.mp (h.symm.trans hgs2)
        rw [← hsheq, heq, hflag] at hact2
        exact Bool.noConfusion hact2
    · intro b' bb' hbb2 hin
      have hbb2' : bodyAABB (Run^[m] s).shapes
          ((Run^[m] s).shapes.map (genAABB (Run^[m] s).cfg.envelope)) b' = some bb' := by
        rw [hsh, hcf]; exact hbb2
      have hin' : aabbOverlap bb' ⟨(Run^[m] s).cfg.activeMin, (Run^[m] s).cfg.activeMax⟩ =
          true := by rw [hcf]; exact hin
      rw [run_flag_preserved hbb2' hin']
      rcases Nat.eq_zero_or_pos m with h0 | hm
      · subst h0; rfl
      · exact (ih hm).2.2 b' bb' hbb2 hin

theorem narrowphase_subset_aabb_overlap_witness :
    (scenarioB.shapes.get? 0 = some ⟨0, .sphere 1, ⟨0, 0, 0⟩, 1, 1⟩ ∧
     scenarioB.shapes.get? 1 = some ⟨1, .sphere 1, ⟨0, 0, 3⟩, 1, 1⟩ ∧
     aabbOverlap (genAABB scenarioB.cfg.envelope ⟨0, .sphere 1, ⟨0, 0, 0⟩, 1, 1⟩)
       (genAABB scenarioB.cfg.envelope ⟨1, .sphere 1, ⟨0, 0, 3⟩, 1, 1⟩) = false) ∧
    (∀ c ∈ (Run scenarioB).contacts,
      ¬(c.shapeA = 0 ∧ c.shapeB = 1) ∧ ¬(c.shapeA = 1 ∧ c.shapeB = 0)) :=
  ⟨⟨by decide, by decide, by decide⟩,
   narrowphase_subset_aabb_overlap scenarioB 0 1 ⟨0, .sphere 1, ⟨0, 0, 0⟩, 1, 1⟩
     ⟨1, .sphere 1, ⟨0, 0, 3⟩, 1, 1⟩ (by decide) (by decide) (by decide)⟩

theorem get_overlapping_aabb_exact_witness :
    0 < scenarioA.bodyActive.length ∧
    ((GetOverlappingAABB scenarioA ⟨-2, -2, -2⟩ ⟨2, 2, 3⟩).getD 0 false = true ↔
      ∃ bb, bodyAABB scenarioA.shapes
          (scenarioA.shapes.map (genAABB scenarioA.cfg.envelope)) 0 = some bb ∧
        (real3.mk (-2) (-2) (-2)).x ≤ bb.bmin.x ∧
        (real3.mk (-2) (-2) (-2)).y ≤ bb.bmin.y ∧
        (real3.mk (-2) (-2) (-2)).z ≤ bb.bmin.z ∧
        bb.bmax.x ≤ (real3.mk 2 2 3).x ∧
        bb.bmax.y ≤ (real3.mk 2 2 3).y ∧
        bb.bmax.z ≤ (real3.mk 2 2 3).z) :=
  ⟨by decide, get_overlapping_aabb_exact scenarioA ⟨-2, -2, -2⟩ ⟨2, 2, 3⟩ 0 (by decide)⟩

theorem active_box_excludes_body_witness :
    (scenarioD.cfg.useAabbActive = true ∧
     0 < scenarioD.bodyActive.length ∧
     bodyAABB scenarioD.shapes (scenarioD.shapes.map (genAABB scenarioD.cfg.envelope)) 0 =
       some ⟨⟨9, -1, -1⟩, ⟨11, 1, 1⟩⟩ ∧
     aabbOverlap ⟨⟨9, -1, -1⟩, ⟨11, 1, 1⟩⟩
       ⟨scenarioD.cfg.activeMin, scenarioD.cfg.activeMax⟩ = false) ∧
    (∀ n, 0 < n →
      (Run^[n] scenarioD).bodyActive.getD 0 true = false ∧
      (∀ p ∈ GetOverlappingPairs (Run^[n] scenarioD), ∀ sh,
        (scenarioD.shapes.get? p.1 = some sh ∨ scenarioD.shapes.get? p.2 = some sh) →
        sh.bodyId ≠ 0) ∧
      (∀ b' bb', bodyAABB scenarioD.shapes
          (scenarioD.shapes.map (genAABB scenarioD.cfg.envelope)) b' = some bb' →
        aabbOverlap bb' ⟨scenarioD.cfg.activeMin, scenarioD.cfg.activeMax⟩ = true →
        (Run^[n] scenarioD).bodyActive.getD b' true =
          scenarioD.bodyActive.getD b' true)) :=
  ⟨⟨rfl, by decide, by decide, by decide⟩,
   active_box_excludes_body scenarioD 0 ⟨⟨9, -1, -1⟩, ⟨11, 1, 1⟩⟩ rfl
     (by decide) (by decide) (by decide)⟩

end ChronoCollision
